import Mathlib

/-!
Shallow embedding of the `deduplicate` pipeline (package `cmd`, canonical
worker-pool variant): timestamp resolution (`getFileTime`), hashing-phase index
insertion (`processFileHash`), the per-survivor materialization job body of
`processHashes`, and the file materializer (`copyFile` / `copyFileContents`).

External collaborators (crypto/sha512, exif decoding, `times.Stat`, the
filesystem) are modelled explicitly:
* file contents are byte lists; the digest is modelled as an injective
  black box (the spec treats hash collisions as true duplicates, i.e. the
  digest is collision-free for the purposes of the index);
* per-file metadata and I/O outcomes (`os.Open` success, exif capture time,
  birth/modification times) are packaged in a `FileEnv` record consumed by
  `getFileTime`;
* the filesystem is a map from paths to inode numbers plus a map from inode
  numbers to inode data, so hard links, device+inode identity (`os.SameFile`)
  and truncation-through-a-link are all representable.
-/

namespace Dedup

/-- Components of a Go `time.Time` as far as the pattern
`20060102T150405` is concerned. -/
structure GoTime where
  year : Nat
  month : Nat
  day : Nat
  hour : Nat
  minute : Nat
  second : Nat
deriving DecidableEq, Repr

/-- The zero Go time value, what `getFileTime` returns alongside an error. -/
def zeroTime : GoTime := ⟨0, 0, 0, 0, 0, 0⟩

/-- Leap-year rule used by the Go time package for day-of-month validation. -/
def isLeapYear (y : Nat) : Bool :=
  y % 4 == 0 && (y % 100 != 0 || y % 400 == 0)

/-- Number of days in a month, as validated by Go time parsing for the day verb. -/
def daysIn (m y : Nat) : Nat :=
  if m == 2 then (if isLeapYear y then 29 else 28)
  else if m == 4 || m == 6 || m == 9 || m == 11 then 30
  else 31

/-- Digit value of an ASCII character. -/
def dv (c : Char) : Nat := c.toNat - 48

/-- Model of Go `time.Parse("20060102T150405", s)` applied to a 15-character
string: 4 digit year, 2 digit month, 2 digit day, literal `T`, 2 digit hour,
minute and second, with the Go range validation (month 1-12, day 1-daysIn,
hour below 24, minute and second below 60).  Any other shape fails. -/
def parse15 (cs : List Char) : Option GoTime :=
  match cs with
  | [y1, y2, y3, y4, mo1, mo2, d1, d2, t, h1, h2, mi1, mi2, s1, s2] =>
    if y1.isDigit && y2.isDigit && y3.isDigit && y4.isDigit &&
       mo1.isDigit && mo2.isDigit && d1.isDigit && d2.isDigit &&
       t == 'T' &&
       h1.isDigit && h2.isDigit && mi1.isDigit && mi2.isDigit &&
       s1.isDigit && s2.isDigit then
      let year := ((dv y1 * 10 + dv y2) * 10 + dv y3) * 10 + dv y4
      let month := dv mo1 * 10 + dv mo2
      let day := dv d1 * 10 + dv d2
      let hour := dv h1 * 10 + dv h2
      let minute := dv mi1 * 10 + dv mi2
      let second := dv s1 * 10 + dv s2
      if 1 ≤ month && month ≤ 12 && 1 ≤ day && day ≤ daysIn month year &&
         hour ≤ 23 && minute ≤ 59 && second ≤ 59 then
        some ⟨year, month, day, hour, minute, second⟩
      else none
    else none
  | _ => none

/-- Variant of `parse15` on strings (the code slices the first 15 bytes of the
base name; a successful parse forces them to be ASCII, where bytes and
characters agree). -/
def parseTimeFormat (s : String) : Option GoTime := parse15 s.data

/-- Left-pad the decimal representation of `n` with zeros to width `w`,
as the Go Format method does for the numeric verbs of `20060102T150405`. -/
def padZero (w n : Nat) : String :=
  let r := Nat.repr n
  ⟨List.replicate (w - r.length) '0' ++ r.data⟩

/-- Model of Go `t.Format("20060102T150405")`. -/
def formatTime (t : GoTime) : String :=
  padZero 4 t.year ++ padZero 2 t.month ++ padZero 2 t.day ++ "T" ++
    padZero 2 t.hour ++ padZero 2 t.minute ++ padZero 2 t.second

/-- Model of Go `strings.ReplaceAll(s, ":", "")`. -/
def removeColons (s : String) : String := ⟨s.data.filter (fun c => c ≠ ':')⟩

/-- Model of Go `filepath.Base` (unix rules): empty path gives `.`,
trailing slashes are dropped, everything up to the last slash is dropped,
and a path of only slashes gives `/`. -/
def filepathBase (path : String) : String :=
  if path.data.isEmpty then "."
  else
    let cs := (path.data.reverse.dropWhile (fun c => c == '/')).reverse
    if cs.isEmpty then "/"
    else ⟨(cs.reverse.takeWhile (fun c => c ≠ '/')).reverse⟩

/-- Split a character list on `/`. -/
def splitSlash (cs : List Char) : List (List Char) :=
  match cs with
  | [] => [[]]
  | c :: rest =>
    let r := splitSlash rest
    if c == '/' then [] :: r
    else
      match r with
      | [] => [[c]]
      | h :: t => (c :: h) :: t

/-- Stack-based processing of path components, mirroring the lexical
simplification performed by Go `filepath.Clean`: empty and `.` components
vanish, `..` pops a non-`..` component (and vanishes at the root of a
rooted path), everything else is pushed.  The accumulator holds the kept
components in reverse order. -/
def cleanComps (rooted : Bool) : List (List Char) → List (List Char) → List (List Char)
  | acc, [] => acc
  | acc, c :: rest =>
    if c.isEmpty || c == ['.'] then cleanComps rooted acc rest
    else if c == ['.', '.'] then
      if rooted then
        match acc with
        | [] => cleanComps rooted [] rest
        | _ :: acc' => cleanComps rooted acc' rest
      else
        match acc with
        | [] => cleanComps rooted [['.', '.']] rest
        | top :: acc' =>
          if top == ['.', '.'] then cleanComps rooted (c :: acc) rest
          else cleanComps rooted acc' rest
    else cleanComps rooted (c :: acc) rest

/-- Join components with `/`. -/
def joinSlash : List (List Char) → List Char
  | [] => []
  | [c] => c
  | c :: rest => c ++ '/' :: joinSlash rest

/-- Model of Go `filepath.Clean` (unix rules). -/
def filepathClean (s : String) : String :=
  if s.data.isEmpty then "."
  else
    let rooted := s.data.head? == some '/'
    let comps := (cleanComps rooted [] (splitSlash s.data)).reverse
    let body := joinSlash comps
    if rooted then ⟨'/' :: body⟩
    else if body.isEmpty then "." else ⟨body⟩

/-- Model of Go `filepath.Join(a, b)`: empty elements are skipped and the
slash-joined rest is cleaned; all empty gives the empty string. -/
def filepathJoin (a b : String) : String :=
  if a.data.isEmpty && b.data.isEmpty then ""
  else if a.data.isEmpty then filepathClean b
  else if b.data.isEmpty then filepathClean a
  else filepathClean (a ++ "/" ++ b)

/-- The constant `timeFormat = "20060102T150405"`. -/
def timeFormat : String := "20060102T150405"

/-- Per-file oracle for the I/O consulted by `getFileTime` after the
filename-prefix step: whether `os.Open` succeeds, what `exif.Decode` plus
`DateTime()` yields, what `times.Stat` yields (birth-time presence, birth
and modification times), and what `file.Stat()` yields as fallback. -/
structure TimesInfo where
  hasBirth : Bool
  birth : GoTime
  modTime : GoTime
deriving DecidableEq, Repr

structure FileEnv where
  openOk : Bool
  exifTime : Option GoTime
  timesInfo : Option TimesInfo
  fileStatMod : Option GoTime
deriving DecidableEq, Repr

/-- The triple returned by Go `getFileTime`: the time, whether `err` was
non-nil, and the `timeInPath` flag. -/
structure GFTResult where
  fileTime : GoTime
  err : Bool
  timeInPath : Bool
deriving DecidableEq, Repr

/-- The metadata/filesystem fallback chain of `getFileTime` (part_000
lines 265-289): open the file (failure is an error), try exif capture
time, then `times.Stat` birth or modification time, then `file.Stat`
modification time, and finally an error. -/
def getFileTimeFallback (env : FileEnv) : GFTResult :=
  if !env.openOk then ⟨zeroTime, true, false⟩
  else
    match env.exifTime with
    | some dt => ⟨dt, false, false⟩
    | none =>
      match env.timesInfo with
      | some st => if st.hasBirth then ⟨st.birth, false, false⟩ else ⟨st.modTime, false, false⟩
      | none =>
        match env.fileStatMod with
        | some m => ⟨m, false, false⟩
        | none => ⟨zeroTime, true, false⟩

/-- Model of `getFileTime` (part_000 lines 258-290): if the base name is
strictly longer than the 15-character pattern and its first 15 characters
parse, return that time with `timeInPath = true`; otherwise run the
metadata/filesystem fallback chain. -/
def getFileTime (filePath : String) (env : FileEnv) : GFTResult :=
  let fileName := filepathBase filePath
  if fileName.length > timeFormat.length then
    match parseTimeFormat (fileName.take 15) with
    | some t => ⟨t, false, true⟩
    | none => getFileTimeFallback env
  else getFileTimeFallback env

/-! ## Hashing phase -/

/-- Lookup in an association list, the model of a Go map read. -/
def alookup {α β : Type} [DecidableEq α] : List (α × β) → α → Option β
  | [], _ => none
  | (k, v) :: rest, k' => if k = k' then some v else alookup rest k'

/-- Update the binding of `k` in an association list (append if absent),
the model of a Go map write. -/
def aset {α β : Type} [DecidableEq α] : List (α × β) → α → β → List (α × β)
  | [], k, v => [(k, v)]
  | (k', v') :: rest, k, v =>
    if k' = k then (k, v) :: rest else (k', v') :: aset rest k v

/-- File contents as a byte sequence. -/
def Bytes : Type := List Nat
deriving instance DecidableEq for Bytes

/-- Model of `fmt.Sprintf("%x", sha512.Sum512(data))`: a deterministic,
collision-free digest of the content.  The spec treats digest equality as
content equality (hash collisions are accepted as true duplicates), so the
digest is modelled canonically by the content itself. -/
def sha512Hex (data : Bytes) : Bytes := data

/-- The shared state mutated by hashing jobs under `hashesMutex`: the
digest-to-first-path map `hashes` and the `collisions` counter. -/
structure HashState where
  hashes : List (Bytes × String)
  collisions : Nat
deriving DecidableEq

/-- Model of `processFileHash` (part_000 lines 179-198) acting on the
locked shared state.  `readRes` is the outcome of `ioutil.ReadFile`:
`some data` on success, `none` on error — in which case the code only
prints the error and carries on with `data = nil`, hashing the empty
byte sequence.  The mutex serializes these calls, so a concurrent run is
a sequence of such state transitions in some order. -/
def processFileHash (st : HashState) (fPath : String) (readRes : Option Bytes) :
    HashState :=
  let data : Bytes := match readRes with | some d => d | none => []
  let strHash := sha512Hex data
  match alookup st.hashes strHash with
  | some _ => { st with collisions := st.collisions + 1 }
  | none => { st with hashes := st.hashes ++ [(strHash, fPath)] }

/-- The hashing phase over a list of (path, read outcome) pairs, starting
from the empty index — the serialization order of the mutex is the list
order, so every interleaving is some choice of this list. -/
def runHashPhase (files : List (String × Option Bytes)) : HashState :=
  files.foldl (fun st f => processFileHash st f.1 f.2) ⟨[], 0⟩

/-! ## Filesystem model -/

/-- An inode: whether the file is regular, and its content. -/
structure Inode where
  regular : Bool
  content : Bytes
deriving DecidableEq

/-- A single-volume filesystem: directory entries map paths to inode
numbers (hard links are two entries with one inode number; `os.SameFile`
is inode-number equality), inodes map numbers to data.  `unremovable`
models paths whose parent directory denies `os.Remove` (EACCES). -/
structure FS where
  entries : List (String × Nat)
  inodes : List (Nat × Inode)
  nextInode : Nat
  unremovable : List String
deriving DecidableEq

/-- Model of `os.Stat`/`os.Open` metadata lookup: the inode number and
inode of the entry at `p`, or `none` (IsNotExist) when absent. -/
def statFS (fs : FS) (p : String) : Option (Nat × Inode) :=
  match alookup fs.entries p with
  | none => none
  | some i =>
    match alookup fs.inodes i with
    | none => none
    | some ino => some (i, ino)

/-- Content visible at a path. -/
def contentAt (fs : FS) (p : String) : Option Bytes :=
  match statFS fs p with
  | some (_, ino) => some ino.content
  | none => none

/-- Number of directory entries sharing the inode of `p` (link count). -/
def linkCount (fs : FS) (p : String) : Nat :=
  match alookup fs.entries p with
  | none => 0
  | some i => (fs.entries.filter (fun e => e.2 = i)).length

/-- Model of `os.Link(src, dst)`: fails when `src` is absent or `dst`
already exists (EEXIST), otherwise adds a second entry for the inode. -/
def linkFS (fs : FS) (src dst : String) : Option FS :=
  match alookup fs.entries src with
  | none => none
  | some i =>
    if (alookup fs.entries dst).isSome then none
    else some { fs with entries := fs.entries ++ [(dst, i)] }

/-- Model of `os.Create(p)` (`O_CREATE|O_TRUNC`): an existing regular file
is truncated in place — through its inode, so every hard link sees the
truncation — a missing one is created fresh; a non-regular target fails. -/
def createFS (fs : FS) (p : String) : Option (FS × Nat) :=
  match alookup fs.entries p with
  | some i =>
    match alookup fs.inodes i with
    | none => none
    | some ino =>
      if ino.regular then
        some ({ fs with inodes := aset fs.inodes i ⟨true, []⟩ }, i)
      else none
  | none =>
    let i := fs.nextInode
    some ({ fs with entries := fs.entries ++ [(p, i)],
                    inodes := fs.inodes ++ [(i, ⟨true, []⟩)],
                    nextInode := i + 1 }, i)

/-- Write `data` to inode `i` (the model of streaming all bytes into the
created handle and syncing). -/
def writeFS (fs : FS) (i : Nat) (data : Bytes) : FS :=
  { fs with inodes := aset fs.inodes i ⟨true, data⟩ }

/-- Model of `os.Remove(p)`: drops the entry; fails when the path is
absent or its parent denies removal. -/
def removeFS (fs : FS) (p : String) : Option FS :=
  if p ∈ fs.unremovable then none
  else if (alookup fs.entries p).isSome then
    some { fs with entries := fs.entries.filter (fun e => e.1 ≠ p) }
  else none

/-! ## File materializer -/

inductive CopyErr where
  | statSrc
  | nonRegularSrc
  | nonRegularDst
  | copyContents
deriving DecidableEq

/-- Model of `copyFileContents` (part_000 lines 329-350): open the source,
create/truncate the destination, then stream the bytes the source handle
reads *after* the truncation (so truncating an inode shared with the
source would be visible), and sync. -/
def copyFileContents (fs : FS) (src dst : String) : Option FS :=
  match statFS fs src with
  | none => none
  | some (si, _) =>
    match createFS fs dst with
    | none => none
    | some (fs1, di) =>
      match alookup fs1.inodes si with
      | none => none
      | some sIno => some (writeFS fs1 di sIno.content)

/-- Model of `copyFile` (part_000 lines 295-323): stat the source (error
propagates), reject a non-regular source, stat the destination (absence
falls through, a present non-regular destination is rejected, the same
filesystem entry — `os.SameFile`, inode identity — succeeds as a no-op),
then try a hard link and fall back to a byte copy. -/
def copyFile (fs : FS) (src dst : String) : Except CopyErr FS :=
  match statFS fs src with
  | none => .error .statSrc
  | some (si, sIno) =>
    if !sIno.regular then .error .nonRegularSrc
    else
      let proceed : Except CopyErr FS :=
        match linkFS fs src dst with
        | some fs' => .ok fs'
        | none =>
          match copyFileContents fs src dst with
          | some fs' => .ok fs'
          | none => .error .copyContents
      match statFS fs dst with
      | none => proceed
      | some (di, dIno) =>
        if !dIno.regular then .error .nonRegularDst
        else if si = di then .ok fs
        else proceed

/-! ## Materialization phase -/

/-- The command-line flags consulted by a materialization job. -/
structure Flags where
  rename : Bool
  move : Bool
  simulate : Bool
deriving DecidableEq

/-- The atomic run counters touched by materialization jobs. -/
structure Counters where
  copyErrors : Nat
  removeErrors : Nat
deriving DecidableEq

/-- Observable console output of one materialization job, in print order. -/
inductive Effect where
  | timeLog (src : String)
  | skip (src dst : String)
  | report (src dst : String)
  | copying (src dst : String)
  | moving (src dst : String)
  | copyError (src : String)
  | removeError (src : String)
deriving DecidableEq

/-- The destination file name a job computes (part_000 lines 209-225),
paired with whether the time-resolution error was logged: with renaming,
resolve the time (an error falls back to `now = time.Now()` and logs),
keep the base name when `timeInPath` is set, otherwise prepend the
formatted time and a space and strip every colon from the whole name;
without renaming, the base name. -/
def destFileNameOf (doRename : Bool) (sourceFile : String) (env : FileEnv)
    (now : GoTime) : String × Bool :=
  if doRename then
    let r := getFileTime sourceFile env
    let fTime := if r.err then now else r.fileTime
    if r.timeInPath then (filepathBase sourceFile, r.err)
    else (removeColons (formatTime fTime ++ " " ++ filepathBase sourceFile), r.err)
  else (filepathBase sourceFile, false)

/-- The destination path a job computes (part_000 line 227):
`filepath.Clean(filepath.Join(dest, destFileName))`. -/
def destinationFileOf (doRename : Bool) (dest sourceFile : String)
    (env : FileEnv) (now : GoTime) : String :=
  filepathClean (filepathJoin dest (destFileNameOf doRename sourceFile env now).1)

/-- Result of one materialization job: filesystem, counters, output. -/
structure JobResult where
  fs : FS
  counters : Counters
  effects : List Effect
deriving DecidableEq

/-- Model of the per-survivor closure submitted by `processHashes`
(part_000 lines 207-252): compute the destination name and path; when the
source string equals the destination string, only print a skip message;
in simulate mode, only print the mapping; otherwise print the copy/move
message and run `copyFile`, a failure incrementing `copyErrors`, and in
move mode remove the source afterwards, a removal failure incrementing
`removeErrors`. -/
def matJob (flags : Flags) (dest sourceFile : String) (env : FileEnv)
    (now : GoTime) (fs : FS) (cnt : Counters) : JobResult :=
  let nd := destFileNameOf flags.rename sourceFile env now
  let pre : List Effect := if nd.2 then [.timeLog sourceFile] else []
  let destinationFile := filepathClean (filepathJoin dest nd.1)
  if sourceFile = destinationFile then
    ⟨fs, cnt, pre ++ [.skip sourceFile destinationFile]⟩
  else if flags.simulate then
    ⟨fs, cnt, pre ++ [.report sourceFile destinationFile]⟩
  else
    let msg : Effect :=
      if flags.move then .moving sourceFile destinationFile
      else .copying sourceFile destinationFile
    match copyFile fs sourceFile destinationFile with
    | .error _ =>
      ⟨fs, { cnt with copyErrors := cnt.copyErrors + 1 },
        pre ++ [msg, .copyError sourceFile]⟩
    | .ok fs' =>
      if flags.move then
        match removeFS fs' sourceFile with
        | none =>
          ⟨fs', { cnt with removeErrors := cnt.removeErrors + 1 },
            pre ++ [msg, .removeError sourceFile]⟩
        | some fs'' => ⟨fs'', cnt, pre ++ [msg]⟩
      else ⟨fs', cnt, pre ++ [msg]⟩

/-- The source-to-destination mappings a job reports in simulate mode. -/
def reportedMappings (es : List Effect) : List (String × String) :=
  es.filterMap fun e =>
    match e with
    | .report s d => some (s, d)
    | _ => none

/-- The source-to-destination mappings a job attempts to materialize. -/
def attemptedMappings (es : List Effect) : List (String × String) :=
  es.filterMap fun e =>
    match e with
    | .copying s d => some (s, d)
    | .moving s d => some (s, d)
    | _ => none

/-- Effects that mutate nothing and count nothing: the skip message and
the time-resolution log. -/
def isBenign (e : Effect) : Bool :=
  match e with
  | .skip _ _ => true
  | .timeLog _ => true
  | _ => false

/-- The materialization phase over the index snapshot: one `matJob` per
surviving path (each with its own per-file oracle), threading the
filesystem and counters and concatenating the console output.  The
serialization order of the filesystem is the list order. -/
def matStep (flags : Flags) (dest : String) (now : GoTime)
    (acc : JobResult) (sv : String × FileEnv) : JobResult :=
  let r := matJob flags dest sv.1 sv.2 now acc.fs acc.counters
  ⟨r.fs, r.counters, acc.effects ++ r.effects⟩

def runMatPhase (flags : Flags) (dest : String) (now : GoTime)
    (survivors : List (String × FileEnv)) (fs : FS) (cnt : Counters) :
    JobResult :=
  survivors.foldl (matStep flags dest now) ⟨fs, cnt, []⟩

/-- The source-to-destination mappings a run over `survivors` intends:
one per survivor whose source path differs from its computed destination
path (jobs whose paths coincide only print a skip message). -/
def intendedMappings (doRename : Bool) (dest : String) (now : GoTime)
    (survivors : List (String × FileEnv)) : List (String × String) :=
  survivors.filterMap fun sv =>
    let d := destinationFileOf doRename dest sv.1 sv.2 now
    if sv.1 = d then none else some (sv.1, d)

/-- Two surviving regular files with distinct inodes and contents `a`
and `b`, equal base names, in different source directories; the
destination directory is empty. -/
def twoSurvivorFS (a b : Bytes) : FS :=
  { entries := [("/s1/x.jpg", 0), ("/s2/x.jpg", 1)],
    inodes := [(0, ⟨true, a⟩), (1, ⟨true, b⟩)],
    nextInode := 2,
    unremovable := [] }

/-! ## Helper lemmas -/

/-- The fallback chain either succeeds or returns the zero time with the
error flag set; in every case `timeInPath` is `false`. -/
theorem getFileTimeFallback_not_inPath (env : FileEnv) :
    (getFileTimeFallback env).timeInPath = false := by
  unfold getFileTimeFallback
  split
  · rfl
  · split
    · rfl
    · split
      · split <;> rfl
      · split
        · rfl
        · rfl

/-- When `getFileTime` reports an error, the `timeInPath` flag is not set. -/
theorem getFileTime_err_not_inPath (p : String) (env : FileEnv)
    (h : (getFileTime p env).err = true) :
    (getFileTime p env).timeInPath = false := by
  unfold getFileTime at *
  dsimp only at *
  by_cases hl : (filepathBase p).length > timeFormat.length
  · rw [if_pos hl] at h ⊢
    generalize parseTimeFormat ((filepathBase p).take 15) = q at h ⊢
    cases q with
    | some t => exact Bool.noConfusion h
    | none => exact getFileTimeFallback_not_inPath env
  · rw [if_neg hl] at h ⊢
    exact getFileTimeFallback_not_inPath env

/-! ## Claims -/

/-- C1 (code_bug evidence): `processFileHash` on a file whose read fails
(`ioutil.ReadFile` returns an error and nil data) does NOT skip insertion:
it prints the error, hashes the nil data, and inserts the digest of the
empty byte sequence with the path of that file into the index.  The claim says
such a file leaves no entry in the index. -/
theorem processFileHash_unreadable_still_indexed :
    processFileHash ⟨[], 0⟩ "/pics/broken.jpg" none =
      ⟨[(sha512Hex [], "/pics/broken.jpg")], 0⟩ := rfl

/-- C2 counterexample: a file whose base name is exactly 15 characters
long and parses against `YYYYMMDDTHHMMSS` is NOT resolved from its name:
`getFileTime` requires the name to be strictly longer than the pattern
(`len(fileName) > len(timeFormat)`), so it falls through to the metadata
chain (here, an exif capture time) and does not signal `timeInPath`. -/
theorem getFileTime_len15_cex :
    15 ≤ (filepathBase "/a/20200102T030405").length ∧
    parseTimeFormat ((filepathBase "/a/20200102T030405").take 15) =
      some ⟨2020, 1, 2, 3, 4, 5⟩ ∧
    getFileTime "/a/20200102T030405"
        ⟨true, some ⟨2019, 1, 1, 0, 0, 0⟩, none, none⟩ ≠
      ⟨⟨2020, 1, 2, 3, 4, 5⟩, false, true⟩ := by
  refine ⟨by decide, by decide, by decide⟩

/-- C2 (amended): for every file whose base name is strictly longer than
the 15-character pattern and whose leading 15 characters parse against
`YYYYMMDDTHHMMSS`, `getFileTime` returns exactly that parsed time with
`timeInPath = true`, regardless of the metadata, birth time or
modification time (the `env` oracle is arbitrary). -/
theorem getFileTime_name_resolved (path : String) (env : FileEnv) (t : GoTime)
    (hlen : 15 < (filepathBase path).length)
    (hparse : parseTimeFormat ((filepathBase path).take 15) = some t) :
    getFileTime path env = ⟨t, false, true⟩ := by
  have hl : timeFormat.length = 15 := rfl
  unfold getFileTime
  dsimp only
  rw [hl, if_pos hlen, hparse]

/-- Witness for `getFileTime_name_resolved` at a concrete 21-character
base name, with a metadata oracle that would yield a different time. -/
theorem getFileTime_name_resolved_wit :
    15 < (filepathBase "/a/20200102T030405 x.jpg").length ∧
    parseTimeFormat ((filepathBase "/a/20200102T030405 x.jpg").take 15) =
      some ⟨2020, 1, 2, 3, 4, 5⟩ ∧
    getFileTime "/a/20200102T030405 x.jpg"
        ⟨true, some ⟨2019, 1, 1, 0, 0, 0⟩, none, none⟩ =
      ⟨⟨2020, 1, 2, 3, 4, 5⟩, false, true⟩ :=
  ⟨by decide, by decide,
    getFileTime_name_resolved _ _ _ (by decide) (by decide)⟩

/-- C8: with renaming enabled and the resolver not signalling
already-named, the destination file name is the resolved timestamp
formatted as `YYYYMMDDTHHMMSS`, a single space, and the original base
name, with every colon removed from the result; with renaming disabled,
it is the original base name unmodified. -/
theorem destFileName_convention (sourceFile : String) (env : FileEnv)
    (now : GoTime)
    (h : (getFileTime sourceFile env).timeInPath = false) :
    (destFileNameOf true sourceFile env now).1 =
      removeColons
        (formatTime
            (if (getFileTime sourceFile env).err then now
             else (getFileTime sourceFile env).fileTime) ++
          " " ++ filepathBase sourceFile) ∧
    (destFileNameOf false sourceFile env now).1 = filepathBase sourceFile := by
  constructor
  · simp [destFileNameOf, h]
  · rfl

/-- Witness for `destFileName_convention` on a file resolved from exif. -/
theorem destFileName_convention_wit :
    (getFileTime "/s/a:b.jpg" ⟨true, some ⟨2021, 12, 31, 23, 59, 58⟩, none, none⟩).timeInPath = false ∧
    (destFileNameOf true "/s/a:b.jpg"
        ⟨true, some ⟨2021, 12, 31, 23, 59, 58⟩, none, none⟩ zeroTime).1 =
      removeColons
        (formatTime
            (if (getFileTime "/s/a:b.jpg" ⟨true, some ⟨2021, 12, 31, 23, 59, 58⟩, none, none⟩).err
             then zeroTime
             else (getFileTime "/s/a:b.jpg" ⟨true, some ⟨2021, 12, 31, 23, 59, 58⟩, none, none⟩).fileTime) ++
          " " ++ filepathBase "/s/a:b.jpg") ∧
    (destFileNameOf false "/s/a:b.jpg"
        ⟨true, some ⟨2021, 12, 31, 23, 59, 58⟩, none, none⟩ zeroTime).1 =
      filepathBase "/s/a:b.jpg" :=
  ⟨by decide,
    (destFileName_convention "/s/a:b.jpg"
        ⟨true, some ⟨2021, 12, 31, 23, 59, 58⟩, none, none⟩ zeroTime (by decide)).1,
    (destFileName_convention "/s/a:b.jpg"
        ⟨true, some ⟨2021, 12, 31, 23, 59, 58⟩, none, none⟩ zeroTime (by decide)).2⟩

/-- Folding hashing steps for files with content `c` over a state whose
index already holds the digest of `c` leaves the index unchanged and
counts one collision per file. -/
theorem foldl_hash_same_content (c : Bytes) (ps : List String) (st : HashState)
    (h : (alookup st.hashes (sha512Hex c)).isSome = true) :
    ps.foldl (fun s p => processFileHash s p (some c)) st =
      ⟨st.hashes, st.collisions + ps.length⟩ := by
  induction ps generalizing st with
  | nil => simp
  | cons p ps ih =>
    have hstep : processFileHash st p (some c) = ⟨st.hashes, st.collisions + 1⟩ := by
      unfold processFileHash
      dsimp only
      generalize hq : alookup st.hashes (sha512Hex c) = q at h
      cases q with
      | none => simp at h
      | some v => rfl
    rw [List.foldl_cons, hstep, ih ⟨st.hashes, st.collisions + 1⟩ h]
    congr 1
    simp only [List.length_cons]
    omega

/-- C3: for N ≥ 2 files with byte-identical content `c` processed by the
hashing phase (in any serialization order — the list is arbitrary), the
index afterwards contains exactly one entry for their shared digest, its
recorded path is one of the N paths (the first in the serialization
order), and the collision counter was incremented exactly N − 1 times. -/
theorem hashPhase_first_seen_wins (p : String) (ps : List String) (c : Bytes)
    (hN : 2 ≤ (p :: ps).length) :
    (runHashPhase ((p :: ps).map (fun q => (q, some c)))).hashes =
        [(sha512Hex c, p)] ∧
    (runHashPhase ((p :: ps).map (fun q => (q, some c)))).collisions =
        (p :: ps).length - 1 ∧
    p ∈ p :: ps := by
  unfold runHashPhase
  rw [List.map_cons, List.foldl_cons, List.foldl_map]
  have h0 : processFileHash ⟨[], 0⟩ p (some c) = ⟨[(sha512Hex c, p)], 0⟩ := rfl
  rw [h0]
  dsimp only
  rw [foldl_hash_same_content c ps ⟨[(sha512Hex c, p)], 0⟩ (by simp [alookup])]
  refine ⟨rfl, by simp, List.mem_cons_self p ps⟩

/-- Witness for `hashPhase_first_seen_wins`: three identical files. -/
theorem hashPhase_first_seen_wins_wit :
    2 ≤ (["/s1/a.jpg", "/s2/b.jpg", "/s3/c.jpg"] : List String).length ∧
    ((runHashPhase ((("/s1/a.jpg" : String) :: ["/s2/b.jpg", "/s3/c.jpg"]).map
          (fun q => (q, some ([7] : Bytes))))).hashes =
        [(sha512Hex [7], "/s1/a.jpg")] ∧
      (runHashPhase ((("/s1/a.jpg" : String) :: ["/s2/b.jpg", "/s3/c.jpg"]).map
          (fun q => (q, some ([7] : Bytes))))).collisions =
        (("/s1/a.jpg" : String) :: ["/s2/b.jpg", "/s3/c.jpg"]).length - 1 ∧
      ("/s1/a.jpg" : String) ∈ ("/s1/a.jpg" : String) :: ["/s2/b.jpg", "/s3/c.jpg"]) :=
  ⟨by decide,
    hashPhase_first_seen_wins "/s1/a.jpg" ["/s2/b.jpg", "/s3/c.jpg"] [7] (by decide)⟩

/-- C6 counterexample: the unconditional same-entry claim is false for a
non-regular entry.  Two paths resolving to the identical filesystem entry
(inode 0) that is not a regular file — e.g. two hard links to a socket —
do NOT make `copyFile` succeed as a no-op: the code checks
`sfi.Mode().IsRegular()` before `os.SameFile`, so it returns the
NonRegularFile error instead of nil. -/
theorem copyFile_same_entry_cex :
    statFS ⟨[("/d/sock", 0), ("/d/sock2", 0)], [(0, ⟨false, []⟩)], 1, []⟩
        "/d/sock" = some (0, ⟨false, []⟩) ∧
    statFS ⟨[("/d/sock", 0), ("/d/sock2", 0)], [(0, ⟨false, []⟩)], 1, []⟩
        "/d/sock2" = some (0, ⟨false, []⟩) ∧
    copyFile ⟨[("/d/sock", 0), ("/d/sock2", 0)], [(0, ⟨false, []⟩)], 1, []⟩
        "/d/sock" "/d/sock2" = .error .nonRegularSrc := by
  refine ⟨by decide, by decide, rfl⟩

/-- C6 (amended): when source and destination resolve to the identical
filesystem entry — same inode number, the model of the device+inode
identity of `os.SameFile` — and that entry is a regular file, `copyFile`
succeeds as a no-op: it returns the filesystem unchanged, so the content
and link count of every path are untouched.  (Without regularity the
NonRegularFile check fires first; see the counterexample.) -/
theorem copyFile_same_entry (fs : FS) (src dst : String) (i : Nat) (ino : Inode)
    (hs : statFS fs src = some (i, ino))
    (hd : statFS fs dst = some (i, ino))
    (hreg : ino.regular = true) :
    copyFile fs src dst = .ok fs := by
  unfold copyFile
  rw [hs, hd]
  simp [hreg]

/-- Witness for `copyFile_same_entry`: two hard links to one inode. -/
theorem copyFile_same_entry_wit :
    statFS ⟨[("/d/x.jpg", 0), ("/d/y.jpg", 0)], [(0, ⟨true, [3]⟩)], 1, []⟩
        "/d/x.jpg" = some (0, ⟨true, [3]⟩) ∧
    statFS ⟨[("/d/x.jpg", 0), ("/d/y.jpg", 0)], [(0, ⟨true, [3]⟩)], 1, []⟩
        "/d/y.jpg" = some (0, ⟨true, [3]⟩) ∧
    copyFile ⟨[("/d/x.jpg", 0), ("/d/y.jpg", 0)], [(0, ⟨true, [3]⟩)], 1, []⟩
        "/d/x.jpg" "/d/y.jpg" =
      .ok ⟨[("/d/x.jpg", 0), ("/d/y.jpg", 0)], [(0, ⟨true, [3]⟩)], 1, []⟩ :=
  ⟨by decide, by decide,
    copyFile_same_entry _ "/d/x.jpg" "/d/y.jpg" 0 ⟨true, [3]⟩
      (by decide) (by decide) rfl⟩

/-- A simulate-mode job mutates nothing and prints either the skip
message or the intended mapping (after an optional time-resolution log). -/
theorem matJob_simulate_eq (r m : Bool) (dest sourceFile : String)
    (env : FileEnv) (now : GoTime) (fs : FS) (cnt : Counters) :
    matJob ⟨r, m, true⟩ dest sourceFile env now fs cnt =
      ⟨fs, cnt,
        (if (destFileNameOf r sourceFile env now).2 then
          [Effect.timeLog sourceFile] else []) ++
        (if sourceFile = destinationFileOf r dest sourceFile env now then
          [Effect.skip sourceFile (destinationFileOf r dest sourceFile env now)]
        else
          [Effect.report sourceFile (destinationFileOf r dest sourceFile env now)])⟩ := by
  unfold matJob destinationFileOf
  dsimp only
  by_cases h : sourceFile = filepathClean (filepathJoin dest (destFileNameOf r sourceFile env now).1)
  · rw [if_pos h, if_pos h]
  · rw [if_neg h, if_neg h]
    simp

/-- A non-simulate job attempts to materialize exactly the intended
mapping: none when source equals destination, otherwise that single
source-to-destination pair — whatever the filesystem outcome. -/
theorem matJob_attempted_eq (r m : Bool) (dest sourceFile : String)
    (env : FileEnv) (now : GoTime) (fs : FS) (cnt : Counters) :
    attemptedMappings (matJob ⟨r, m, false⟩ dest sourceFile env now fs cnt).effects =
      (if sourceFile = destinationFileOf r dest sourceFile env now then []
       else [(sourceFile, destinationFileOf r dest sourceFile env now)]) := by
  unfold matJob destinationFileOf
  dsimp only
  by_cases h : sourceFile = filepathClean (filepathJoin dest (destFileNameOf r sourceFile env now).1)
  · rw [if_pos h, if_pos h]
    cases hb : (destFileNameOf r sourceFile env now).2 <;>
      simp [attemptedMappings]
  · rw [if_neg h, if_neg h]
    rw [if_neg (by simp : ¬ (false = true))]
    cases hc : copyFile fs sourceFile
        (filepathClean (filepathJoin dest (destFileNameOf r sourceFile env now).1)) with
    | error e =>
      cases hb : (destFileNameOf r sourceFile env now).2 <;> cases m <;>
        simp [attemptedMappings]
    | ok fs' =>
      cases m with
      | false =>
        cases hb : (destFileNameOf r sourceFile env now).2 <;>
          simp [attemptedMappings]
      | true =>
        cases hr : removeFS fs' sourceFile <;>
          cases hb : (destFileNameOf r sourceFile env now).2 <;>
            simp [hr, attemptedMappings]

/-- Equation for `matStep` applied to an accumulator, in unpacked form. -/
theorem matStep_apply (flags : Flags) (dest : String) (now : GoTime)
    (acc : JobResult) (sv : String × FileEnv) :
    matStep flags dest now acc sv =
      ⟨(matJob flags dest sv.1 sv.2 now acc.fs acc.counters).fs,
       (matJob flags dest sv.1 sv.2 now acc.fs acc.counters).counters,
       acc.effects ++ (matJob flags dest sv.1 sv.2 now acc.fs acc.counters).effects⟩ :=
  rfl

/-- The initial effects accumulator of the materialization fold only
prefixes the final output; filesystem and counters ignore it. -/
theorem matFold_effects_shift (flags : Flags) (dest : String) (now : GoTime)
    (survivors : List (String × FileEnv)) :
    ∀ (fs : FS) (cnt : Counters) (es : List Effect),
      survivors.foldl (matStep flags dest now) ⟨fs, cnt, es⟩ =
        ⟨(survivors.foldl (matStep flags dest now) ⟨fs, cnt, []⟩).fs,
         (survivors.foldl (matStep flags dest now) ⟨fs, cnt, []⟩).counters,
         es ++ (survivors.foldl (matStep flags dest now) ⟨fs, cnt, []⟩).effects⟩ := by
  induction survivors with
  | nil => intro fs cnt es; simp
  | cons sv rest ih =>
    intro fs cnt es
    rw [List.foldl_cons, List.foldl_cons, matStep_apply, matStep_apply]
    dsimp only
    rw [ih _ _ (es ++ (matJob flags dest sv.1 sv.2 now fs cnt).effects),
        ih _ _ ([] ++ (matJob flags dest sv.1 sv.2 now fs cnt).effects)]
    simp

/-- Unrolling one survivor of the materialization phase. -/
theorem runMatPhase_cons (flags : Flags) (dest : String) (now : GoTime)
    (sv : String × FileEnv) (rest : List (String × FileEnv)) (fs : FS)
    (cnt : Counters) :
    runMatPhase flags dest now (sv :: rest) fs cnt =
      ⟨(runMatPhase flags dest now rest
          (matJob flags dest sv.1 sv.2 now fs cnt).fs
          (matJob flags dest sv.1 sv.2 now fs cnt).counters).fs,
       (runMatPhase flags dest now rest
          (matJob flags dest sv.1 sv.2 now fs cnt).fs
          (matJob flags dest sv.1 sv.2 now fs cnt).counters).counters,
       (matJob flags dest sv.1 sv.2 now fs cnt).effects ++
         (runMatPhase flags dest now rest
            (matJob flags dest sv.1 sv.2 now fs cnt).fs
            (matJob flags dest sv.1 sv.2 now fs cnt).counters).effects⟩ := by
  unfold runMatPhase
  rw [List.foldl_cons, matStep_apply]
  dsimp only
  rw [matFold_effects_shift]
  simp

/-- Unrolling one survivor of the intended mappings. -/
theorem intendedMappings_cons (r : Bool) (dest : String) (now : GoTime)
    (sv : String × FileEnv) (rest : List (String × FileEnv)) :
    intendedMappings r dest now (sv :: rest) =
      (if sv.1 = destinationFileOf r dest sv.1 sv.2 now then []
       else [(sv.1, destinationFileOf r dest sv.1 sv.2 now)]) ++
        intendedMappings r dest now rest := by
  unfold intendedMappings
  rw [List.filterMap_cons]
  dsimp only
  by_cases hd : sv.1 = destinationFileOf r dest sv.1 sv.2 now
  · rw [if_pos hd, if_pos hd]; exact rfl
  · rw [if_neg hd, if_neg hd]; exact rfl

/-- Phase-level accumulation of `matJob_simulate_eq`: a simulate-mode
phase leaves filesystem and counters untouched and reports exactly the
intended mappings. -/
theorem simPhase_aux (r m : Bool) (dest : String) (now : GoTime)
    (survivors : List (String × FileEnv)) :
    ∀ (fs : FS) (cnt : Counters),
      (runMatPhase ⟨r, m, true⟩ dest now survivors fs cnt).fs = fs ∧
      (runMatPhase ⟨r, m, true⟩ dest now survivors fs cnt).counters = cnt ∧
      reportedMappings (runMatPhase ⟨r, m, true⟩ dest now survivors fs cnt).effects =
        intendedMappings r dest now survivors := by
  induction survivors with
  | nil =>
    intro fs cnt
    exact ⟨rfl, rfl, by simp [runMatPhase, reportedMappings, intendedMappings]⟩
  | cons sv rest ih =>
    intro fs cnt
    rw [runMatPhase_cons]
    dsimp only
    rw [matJob_simulate_eq]
    dsimp only
    obtain ⟨h1, h2, h3⟩ := ih fs cnt
    refine ⟨h1, h2, ?_⟩
    unfold reportedMappings at h3 ⊢
    rw [List.filterMap_append, h3, intendedMappings_cons]
    by_cases hd : sv.1 = destinationFileOf r dest sv.1 sv.2 now
    · rw [if_pos hd, if_pos hd]
      cases hb : (destFileNameOf r sv.1 sv.2 now).2 <;> rfl
    · rw [if_neg hd, if_neg hd]
      cases hb : (destFileNameOf r sv.1 sv.2 now).2 <;> rfl

/-- Phase-level accumulation of `matJob_attempted_eq`: a non-simulate
phase attempts exactly the intended mappings, whatever the filesystem. -/
theorem attemptPhase_aux (r m : Bool) (dest : String) (now : GoTime)
    (survivors : List (String × FileEnv)) :
    ∀ (fs : FS) (cnt : Counters),
      attemptedMappings
          (runMatPhase ⟨r, m, false⟩ dest now survivors fs cnt).effects =
        intendedMappings r dest now survivors := by
  induction survivors with
  | nil => intro fs cnt; simp [runMatPhase, attemptedMappings, intendedMappings]
  | cons sv rest ih =>
    intro fs cnt
    rw [runMatPhase_cons]
    dsimp only
    unfold attemptedMappings
    rw [List.filterMap_append]
    have hjob := matJob_attempted_eq r m dest sv.1 sv.2 now fs cnt
    unfold attemptedMappings at hjob
    rw [hjob]
    have hrest := ih (matJob ⟨r, m, false⟩ dest sv.1 sv.2 now fs cnt).fs
      (matJob ⟨r, m, false⟩ dest sv.1 sv.2 now fs cnt).counters
    unfold attemptedMappings at hrest
    rw [hrest, intendedMappings_cons]

/-- C4: with simulate enabled, a materialization-phase run performs no
filesystem mutation at all (the filesystem value is returned unchanged)
and increments no error counter, and the list of source-to-destination
mappings it reports equals the list of mappings a non-simulate run with
the same flags would attempt to materialize (from any filesystem state). -/
theorem runMatPhase_simulate_frame (flags : Flags) (dest : String)
    (now : GoTime) (survivors : List (String × FileEnv)) (fs fs2 : FS)
    (cnt cnt2 : Counters) (hsim : flags.simulate = true) :
    (runMatPhase flags dest now survivors fs cnt).fs = fs ∧
    (runMatPhase flags dest now survivors fs cnt).counters = cnt ∧
    reportedMappings (runMatPhase flags dest now survivors fs cnt).effects =
      attemptedMappings
        (runMatPhase ⟨flags.rename, flags.move, false⟩ dest now survivors
          fs2 cnt2).effects := by
  obtain ⟨r, m, s⟩ := flags
  dsimp only at hsim
  subst hsim
  obtain ⟨h1, h2, h3⟩ := simPhase_aux r m dest now survivors fs cnt
  refine ⟨h1, h2, ?_⟩
  rw [h3]
  exact (attemptPhase_aux r m dest now survivors fs2 cnt2).symm

/-- Witness for `runMatPhase_simulate_frame`: one survivor, simulate on. -/
theorem runMatPhase_simulate_frame_wit :
    (Flags.mk false false true).simulate = true ∧
    ((runMatPhase ⟨false, false, true⟩ "/d" zeroTime
        [("/s1/x.jpg", ⟨true, none, none, none⟩)]
        (twoSurvivorFS [1] [2]) ⟨0, 0⟩).fs = twoSurvivorFS [1] [2] ∧
      (runMatPhase ⟨false, false, true⟩ "/d" zeroTime
        [("/s1/x.jpg", ⟨true, none, none, none⟩)]
        (twoSurvivorFS [1] [2]) ⟨0, 0⟩).counters = ⟨0, 0⟩ ∧
      reportedMappings (runMatPhase ⟨false, false, true⟩ "/d" zeroTime
          [("/s1/x.jpg", ⟨true, none, none, none⟩)]
          (twoSurvivorFS [1] [2]) ⟨0, 0⟩).effects =
        attemptedMappings
          (runMatPhase ⟨(Flags.mk false false true).rename, (Flags.mk false false true).move, false⟩
            "/d" zeroTime [("/s1/x.jpg", ⟨true, none, none, none⟩)]
            (twoSurvivorFS [1] [2]) ⟨0, 0⟩).effects) :=
  ⟨rfl,
    runMatPhase_simulate_frame ⟨false, false, true⟩ "/d" zeroTime
      [("/s1/x.jpg", ⟨true, none, none, none⟩)]
      (twoSurvivorFS [1] [2]) (twoSurvivorFS [1] [2]) ⟨0, 0⟩ ⟨0, 0⟩ rfl⟩

/-- C10: when the source path string of a survivor equals its computed
(cleaned) destination path string, the job only prints the skip message
(preceded at most by the time-resolution log): the filesystem is returned
unchanged and no counter moves — whatever the simulate and move flags
are, because the string-equality check precedes the simulate, hard-link,
same-file and move handling. -/
theorem matJob_self_skip (flags : Flags) (dest sourceFile : String)
    (env : FileEnv) (now : GoTime) (fs : FS) (cnt : Counters)
    (h : sourceFile = destinationFileOf flags.rename dest sourceFile env now) :
    (matJob flags dest sourceFile env now fs cnt).fs = fs ∧
    (matJob flags dest sourceFile env now fs cnt).counters = cnt ∧
    (matJob flags dest sourceFile env now fs cnt).effects.all isBenign = true ∧
    Effect.skip sourceFile
        (destinationFileOf flags.rename dest sourceFile env now) ∈
      (matJob flags dest sourceFile env now fs cnt).effects := by
  unfold destinationFileOf at h ⊢
  unfold matJob
  dsimp only
  rw [if_pos h]
  refine ⟨rfl, rfl, ?_, ?_⟩
  · cases hb : (destFileNameOf flags.rename sourceFile env now).2 <;> rfl
  · cases hb : (destFileNameOf flags.rename sourceFile env now).2 <;> simp

/-- Witness for `matJob_self_skip`: rename off, move on, simulate off;
the survivor already sits at its destination path. -/
theorem matJob_self_skip_wit :
    ("/d/x.jpg" : String) =
      destinationFileOf (Flags.mk false true false).rename "/d" "/d/x.jpg"
        ⟨true, none, none, none⟩ zeroTime ∧
    ((matJob ⟨false, true, false⟩ "/d" "/d/x.jpg" ⟨true, none, none, none⟩
        zeroTime ⟨[("/d/x.jpg", 0)], [(0, ⟨true, [5]⟩)], 1, []⟩ ⟨0, 0⟩).fs =
      ⟨[("/d/x.jpg", 0)], [(0, ⟨true, [5]⟩)], 1, []⟩ ∧
    (matJob ⟨false, true, false⟩ "/d" "/d/x.jpg" ⟨true, none, none, none⟩
        zeroTime ⟨[("/d/x.jpg", 0)], [(0, ⟨true, [5]⟩)], 1, []⟩ ⟨0, 0⟩).counters = ⟨0, 0⟩ ∧
    (matJob ⟨false, true, false⟩ "/d" "/d/x.jpg" ⟨true, none, none, none⟩
        zeroTime ⟨[("/d/x.jpg", 0)], [(0, ⟨true, [5]⟩)], 1, []⟩ ⟨0, 0⟩).effects.all isBenign = true ∧
    Effect.skip "/d/x.jpg"
        (destinationFileOf (Flags.mk false true false).rename "/d" "/d/x.jpg"
          ⟨true, none, none, none⟩ zeroTime) ∈
      (matJob ⟨false, true, false⟩ "/d" "/d/x.jpg" ⟨true, none, none, none⟩
        zeroTime ⟨[("/d/x.jpg", 0)], [(0, ⟨true, [5]⟩)], 1, []⟩ ⟨0, 0⟩).effects) :=
  ⟨by decide,
    matJob_self_skip ⟨false, true, false⟩ "/d" "/d/x.jpg"
      ⟨true, none, none, none⟩ zeroTime
      ⟨[("/d/x.jpg", 0)], [(0, ⟨true, [5]⟩)], 1, []⟩ ⟨0, 0⟩ (by decide)⟩

/-- C9: when the resolver reports its hard TimestampUnavailable error, a
renaming job substitutes the current wall-clock time `now` in the
destination name and still attempts the materialization — the job
completes rather than aborting the file. -/
theorem matJob_time_fallback_now (flags : Flags) (dest sourceFile : String)
    (env : FileEnv) (now : GoTime) (fs : FS) (cnt : Counters)
    (hr : flags.rename = true)
    (herr : (getFileTime sourceFile env).err = true)
    (hsim : flags.simulate = false)
    (hneq : sourceFile ≠ destinationFileOf true dest sourceFile env now) :
    (destFileNameOf true sourceFile env now).1 =
      removeColons (formatTime now ++ " " ++ filepathBase sourceFile) ∧
    attemptedMappings (matJob flags dest sourceFile env now fs cnt).effects =
      [(sourceFile, destinationFileOf true dest sourceFile env now)] := by
  have hnp := getFileTime_err_not_inPath sourceFile env herr
  constructor
  · simp [destFileNameOf, hnp, herr]
  · obtain ⟨r, m, s⟩ := flags
    dsimp only at hr hsim
    subst hr; subst hsim
    rw [matJob_attempted_eq true m dest sourceFile env now fs cnt, if_neg hneq]

/-- Witness for `matJob_time_fallback_now`: a file that cannot even be
opened (`openOk = false`), rename on, simulate off. -/
theorem matJob_time_fallback_now_wit :
    (Flags.mk true false false).rename = true ∧
    (getFileTime "/s/a.jpg" ⟨false, none, none, none⟩).err = true ∧
    (Flags.mk true false false).simulate = false ∧
    ("/s/a.jpg" : String) ≠
      destinationFileOf true "/d" "/s/a.jpg" ⟨false, none, none, none⟩
        ⟨2022, 3, 4, 5, 6, 7⟩ ∧
    ((destFileNameOf true "/s/a.jpg" ⟨false, none, none, none⟩
        ⟨2022, 3, 4, 5, 6, 7⟩).1 =
      removeColons (formatTime ⟨2022, 3, 4, 5, 6, 7⟩ ++ " " ++ filepathBase "/s/a.jpg") ∧
    attemptedMappings (matJob ⟨true, false, false⟩ "/d" "/s/a.jpg"
        ⟨false, none, none, none⟩ ⟨2022, 3, 4, 5, 6, 7⟩
        ⟨[], [], 0, []⟩ ⟨0, 0⟩).effects =
      [("/s/a.jpg",
        destinationFileOf true "/d" "/s/a.jpg" ⟨false, none, none, none⟩
          ⟨2022, 3, 4, 5, 6, 7⟩)]) :=
  ⟨rfl, by decide, rfl, by decide,
    matJob_time_fallback_now ⟨true, false, false⟩ "/d" "/s/a.jpg"
      ⟨false, none, none, none⟩ ⟨2022, 3, 4, 5, 6, 7⟩ ⟨[], [], 0, []⟩ ⟨0, 0⟩
      rfl (by decide) rfl (by decide)⟩

/-- C7: move-mode semantics of a materialization job (simulate off,
source differing from destination).  If `copyFile` succeeds the source is
removed; a removal failure increments only the remove-errors counter and
leaves the already-materialized filesystem state `fs'` in place; if
`copyFile` fails, no removal is attempted (the filesystem is unchanged)
and only the copy-errors counter is incremented. -/
theorem matJob_move_semantics (flags : Flags) (dest sourceFile : String)
    (env : FileEnv) (now : GoTime) (fs : FS) (cnt : Counters)
    (hm : flags.move = true) (hsim : flags.simulate = false)
    (hneq : sourceFile ≠ destinationFileOf flags.rename dest sourceFile env now) :
    (∀ fs' fs'',
      copyFile fs sourceFile (destinationFileOf flags.rename dest sourceFile env now) = .ok fs' →
      removeFS fs' sourceFile = some fs'' →
      (matJob flags dest sourceFile env now fs cnt).fs = fs'' ∧
      (matJob flags dest sourceFile env now fs cnt).counters = cnt) ∧
    (∀ fs',
      copyFile fs sourceFile (destinationFileOf flags.rename dest sourceFile env now) = .ok fs' →
      removeFS fs' sourceFile = none →
      (matJob flags dest sourceFile env now fs cnt).fs = fs' ∧
      (matJob flags dest sourceFile env now fs cnt).counters.removeErrors =
        cnt.removeErrors + 1 ∧
      (matJob flags dest sourceFile env now fs cnt).counters.copyErrors =
        cnt.copyErrors) ∧
    (∀ e,
      copyFile fs sourceFile (destinationFileOf flags.rename dest sourceFile env now) = .error e →
      (matJob flags dest sourceFile env now fs cnt).fs = fs ∧
      (matJob flags dest sourceFile env now fs cnt).counters.copyErrors =
        cnt.copyErrors + 1 ∧
      (matJob flags dest sourceFile env now fs cnt).counters.removeErrors =
        cnt.removeErrors) := by
  obtain ⟨r, m, s⟩ := flags
  dsimp only at hm hsim
  subst hm; subst hsim
  unfold destinationFileOf at hneq ⊢
  unfold matJob
  dsimp only
  rw [if_neg hneq, if_neg (by simp : ¬(false = true))]
  refine ⟨?_, ?_, ?_⟩
  · intro fs' fs'' hc hrm
    rw [hc]
    dsimp only
    rw [if_pos rfl, hrm]
    exact ⟨rfl, rfl⟩
  · intro fs' hc hrm
    rw [hc]
    dsimp only
    rw [if_pos rfl, hrm]
    exact ⟨rfl, rfl, rfl⟩
  · intro e hc
    rw [hc]
    exact ⟨rfl, rfl, rfl⟩

/-- Witness for `matJob_move_semantics`: move on, simulate off, a real
source file whose destination differs. -/
theorem matJob_move_semantics_wit :
    (Flags.mk false true false).move = true ∧
    (Flags.mk false true false).simulate = false ∧
    ("/s1/x.jpg" : String) ≠
      destinationFileOf (Flags.mk false true false).rename "/d" "/s1/x.jpg"
        ⟨true, none, none, none⟩ zeroTime ∧
    ((∀ fs' fs'',
      copyFile (twoSurvivorFS [1] [2]) "/s1/x.jpg"
          (destinationFileOf (Flags.mk false true false).rename "/d" "/s1/x.jpg"
            ⟨true, none, none, none⟩ zeroTime) = .ok fs' →
      removeFS fs' "/s1/x.jpg" = some fs'' →
      (matJob ⟨false, true, false⟩ "/d" "/s1/x.jpg" ⟨true, none, none, none⟩
          zeroTime (twoSurvivorFS [1] [2]) ⟨0, 0⟩).fs = fs'' ∧
      (matJob ⟨false, true, false⟩ "/d" "/s1/x.jpg" ⟨true, none, none, none⟩
          zeroTime (twoSurvivorFS [1] [2]) ⟨0, 0⟩).counters = ⟨0, 0⟩) ∧
    (∀ fs',
      copyFile (twoSurvivorFS [1] [2]) "/s1/x.jpg"
          (destinationFileOf (Flags.mk false true false).rename "/d" "/s1/x.jpg"
            ⟨true, none, none, none⟩ zeroTime) = .ok fs' →
      removeFS fs' "/s1/x.jpg" = none →
      (matJob ⟨false, true, false⟩ "/d" "/s1/x.jpg" ⟨true, none, none, none⟩
          zeroTime (twoSurvivorFS [1] [2]) ⟨0, 0⟩).fs = fs' ∧
      (matJob ⟨false, true, false⟩ "/d" "/s1/x.jpg" ⟨true, none, none, none⟩
          zeroTime (twoSurvivorFS [1] [2]) ⟨0, 0⟩).counters.removeErrors = 0 + 1 ∧
      (matJob ⟨false, true, false⟩ "/d" "/s1/x.jpg" ⟨true, none, none, none⟩
          zeroTime (twoSurvivorFS [1] [2]) ⟨0, 0⟩).counters.copyErrors = 0) ∧
    (∀ e,
      copyFile (twoSurvivorFS [1] [2]) "/s1/x.jpg"
          (destinationFileOf (Flags.mk false true false).rename "/d" "/s1/x.jpg"
            ⟨true, none, none, none⟩ zeroTime) = .error e →
      (matJob ⟨false, true, false⟩ "/d" "/s1/x.jpg" ⟨true, none, none, none⟩
          zeroTime (twoSurvivorFS [1] [2]) ⟨0, 0⟩).fs = twoSurvivorFS [1] [2] ∧
      (matJob ⟨false, true, false⟩ "/d" "/s1/x.jpg" ⟨true, none, none, none⟩
          zeroTime (twoSurvivorFS [1] [2]) ⟨0, 0⟩).counters.copyErrors = 0 + 1 ∧
      (matJob ⟨false, true, false⟩ "/d" "/s1/x.jpg" ⟨true, none, none, none⟩
          zeroTime (twoSurvivorFS [1] [2]) ⟨0, 0⟩).counters.removeErrors = 0)) :=
  ⟨rfl, rfl, by decide,
    matJob_move_semantics ⟨false, true, false⟩ "/d" "/s1/x.jpg"
      ⟨true, none, none, none⟩ zeroTime (twoSurvivorFS [1] [2]) ⟨0, 0⟩
      rfl rfl (by decide)⟩

/-- C5: two survivors with different contents `a` and `b`, equal base
names and rename off both map to `/d/x.jpg`.  The phase materializes both
with zero errors counted: the first job hard-links the destination to the
first survivor, the link attempt of the second job fails (destination
exists), and its
copy fallback truncates and overwrites, so the destination ends with the
content of the later survivor only. -/
theorem samename_overwrite (a b : Bytes) (hab : a ≠ b) :
    contentAt
        (runMatPhase ⟨false, false, false⟩ "/d" zeroTime
          [("/s1/x.jpg", ⟨true, none, none, none⟩),
           ("/s2/x.jpg", ⟨true, none, none, none⟩)]
          (twoSurvivorFS a b) ⟨0, 0⟩).fs "/d/x.jpg" = some b ∧
    (runMatPhase ⟨false, false, false⟩ "/d" zeroTime
        [("/s1/x.jpg", ⟨true, none, none, none⟩),
         ("/s2/x.jpg", ⟨true, none, none, none⟩)]
        (twoSurvivorFS a b) ⟨0, 0⟩).counters = ⟨0, 0⟩ := by
  exact ⟨rfl, rfl⟩

/-- Witness for `samename_overwrite` at contents `[1]` and `[2]`. -/
theorem samename_overwrite_wit :
    ([1] : Bytes) ≠ [2] ∧
    (contentAt
        (runMatPhase ⟨false, false, false⟩ "/d" zeroTime
          [("/s1/x.jpg", ⟨true, none, none, none⟩),
           ("/s2/x.jpg", ⟨true, none, none, none⟩)]
          (twoSurvivorFS [1] [2]) ⟨0, 0⟩).fs "/d/x.jpg" = some [2] ∧
      (runMatPhase ⟨false, false, false⟩ "/d" zeroTime
          [("/s1/x.jpg", ⟨true, none, none, none⟩),
           ("/s2/x.jpg", ⟨true, none, none, none⟩)]
          (twoSurvivorFS [1] [2]) ⟨0, 0⟩).counters = ⟨0, 0⟩) :=
  ⟨by decide, samename_overwrite [1] [2] (by decide)⟩

end Dedup
